import Mathlib

set_option maxHeartbeats 1000000

namespace GCVerify

/-! String helpers modelling the Python primitives used by the GC log parsers
    of this repository (truthiness tests and the `in` substring operator). -/

/-- Truthiness of an optional Python string: `None` and the empty string are falsy,
every other string is truthy. -/
def pyTruthy : Option String → Bool
  | none => false
  | some s => !s.data.isEmpty

/-- Containment of a character sequence in another, modelling the Python `in`
operator on strings: `containsSub n h = true` iff `n` occurs contiguously in `h`
(the empty needle occurs in every string). -/
def containsSub (needle : List Char) : List Char → Bool
  | [] => needle.isEmpty
  | c :: rest => needle.isPrefixOf (c :: rest) || containsSub needle rest

/-- Check whether `hay` contains `needle` as a substring (Python `needle in hay`). -/
def strHas (hay needle : String) : Bool := containsSub needle.data hay.data

/-! Pause-name composition, embedded from `heap_plotter.py`.

The traditional-dialect parser `parse_gc_log` (lines 1006-1017) runs

```text
if description:
    if "Mixed" in description or "Concurrent Start" in description:
        pause_type = description
    if "System.gc()" in description:
        pause_cause = "SystemGC"
if pause_cause: pause_name = f"<pause_type> <pause_cause>"
elif description: pause_name = f"<pause_type> <description>"
else: pause_name = pause_type
```

and the structured-timestamp parser `parse_modern_gc_log` (lines 363-375) runs
the identical statements.  `description` and `cause` are the optional regex
capture groups (absent group = `None`; a group can also capture the empty
string, which Python treats as falsy). -/

/-- Pause-name composition as performed by `parse_gc_log` (heap_plotter.py,
lines 1006-1017). -/
def composePauseName (pauseType : String) (description cause : Option String) : String :=
  let d := description.getD ""
  let pt := if pyTruthy description && (strHas d "Mixed" || strHas d "Concurrent Start") then d
            else pauseType
  let c := if pyTruthy description && strHas d "System.gc()" then some "SystemGC" else cause
  if pyTruthy c then pt ++ " " ++ c.getD ""
  else if pyTruthy description then pt ++ " " ++ d
  else pt

/-- Pause-name composition as performed by `parse_modern_gc_log` (heap_plotter.py,
lines 363-375); the source statements are textually identical to those of
`parse_gc_log`. -/
def composePauseNameModern (pauseType : String) (description cause : Option String) : String :=
  let d := description.getD ""
  let pt := if pyTruthy description && (strHas d "Mixed" || strHas d "Concurrent Start") then d
            else pauseType
  let c := if pyTruthy description && strHas d "System.gc()" then some "SystemGC" else cause
  if pyTruthy c then pt ++ " " ++ c.getD ""
  else if pyTruthy description then pt ++ " " ++ d
  else pt

/-- Pause-name precedence rule as worded by the specification (section 4.3):
a description containing "Mixed" or "Concurrent Start" replaces the pause type;
a description containing "System.gc()" forces the cause to the literal "SystemGC";
the final name is "pause_type cause" when a cause is present, else
"pause_type description" when a description is present, else the pause type alone.
Presence of an optional clause means a truthy (non-`None`, non-empty) capture,
matching the specification's rule that absent optional groups map to `None`. -/
def pauseNameSpec (pauseType : String) (description cause : Option String) : String :=
  let d := description.getD ""
  let pt := if strHas d "Mixed" || strHas d "Concurrent Start" then d else pauseType
  let c := if strHas d "System.gc()" then some "SystemGC" else cause
  if pyTruthy c then pt ++ " " ++ c.getD ""
  else if pyTruthy description then pt ++ " " ++ d
  else pt

/-- C1: pause-name composition follows the exact precedence rule of the
specification, identically in both the elapsed-seconds and the
structured-timestamp dialect parsers: both `composePauseName` (from
`parse_gc_log`) and `composePauseNameModern` (from `parse_modern_gc_log`)
agree with the specification's rule `pauseNameSpec` on every input. -/
theorem c1_pause_name_composition (pauseType : String) (description cause : Option String) :
    composePauseName pauseType description cause = pauseNameSpec pauseType description cause ∧
    composePauseNameModern pauseType description cause = pauseNameSpec pauseType description cause := by
  have h : composePauseName pauseType description cause = pauseNameSpec pauseType description cause := by
    cases description with
    | none => rfl
    | some s =>
      cases s with
      | mk l =>
        cases l with
        | nil => rfl
        | cons a as => rfl
  exact ⟨h, h⟩

/-! Timestamp normalization, embedded from `parse_g1_regions.py`,
`G1EnhancedParser._parse_timestamp` (lines 128-139):

```text
try:
    if 'T' in timestamp_str:
        dt = datetime.fromisoformat(timestamp_str.replace('Z', '+00:00').replace('+0000', '+00:00'))
        return dt.timestamp()
    else:
        return float(timestamp_str)
except:
    return 0.0
```

The two host-library primitives (`float(...)` and
`datetime.fromisoformat(...).timestamp()`) are modelled below as executable
partial parsers returning `Option ℚ` (`none` models the raised exception):
`pyFloat?` accepts signed decimal literals (the subset of the Python float
grammar exercised by the log tokens), and `isoDateTime?` accepts
`YYYY-MM-DDTHH:MM:SS` with optional fractional seconds and optional
`±HH:MM` offset, validating calendar ranges the way `fromisoformat` does and
converting to epoch seconds (a naive timestamp is interpreted as UTC). -/

/-- Value of a decimal digit character, `none` when the character is not a digit. -/
def digitVal? (c : Char) : Option ℕ := if c.isDigit then some (c.toNat - 48) else none

/-- Accumulate a run of decimal digits into a natural number. -/
def digitsValAux : ℕ → List Char → Option ℕ
  | acc, [] => some acc
  | acc, c :: cs =>
    match digitVal? c with
    | some d => digitsValAux (acc * 10 + d) cs
    | none => none

/-- Numeric value of a non-empty run of decimal digits, `none` otherwise. -/
def digitsVal? : List Char → Option ℕ
  | [] => none
  | l => digitsValAux 0 l

/-- Split a character list at the first dot, returning the part before it and,
when a dot is present, the part after it. -/
def breakDot : List Char → List Char × Option (List Char)
  | [] => ([], none)
  | c :: rest =>
    if c = '.' then ([], some rest)
    else
      let p := breakDot rest
      (c :: p.1, p.2)

/-- Model of Python `float(s)` on signed decimal literals: an optional sign,
then digits with an optional single dot (`"1."` and `".5"` are accepted, as in
Python); anything else yields `none`, modelling the raised `ValueError`. -/
def pyFloat? (s : String) : Option ℚ :=
  let signSplit : Bool × List Char :=
    match s.data with
    | '-' :: r => (true, r)
    | '+' :: r => (false, r)
    | r => (false, r)
  let q? : Option ℚ :=
    match breakDot signSplit.2 with
    | (ip, none) => (digitsVal? ip).map (fun n => (n : ℚ))
    | (ip, some fp) =>
      if ip.isEmpty && fp.isEmpty then none
      else
        let ipv? : Option ℚ := if ip.isEmpty then some 0 else (digitsVal? ip).map (fun n => (n : ℚ))
        let fpv? : Option ℚ :=
          if fp.isEmpty then some 0
          else (digitsVal? fp).map (fun n => (n : ℚ) / (10 : ℚ) ^ fp.length)
        match ipv?, fpv? with
        | some a, some b => some (a + b)
        | _, _ => none
  q?.map (fun q => if signSplit.1 then -q else q)

/-- Replacement of every `'Z'` by `"+00:00"`, modelling
`timestamp_str.replace('Z', '+00:00')`. -/
def replaceZ : List Char → List Char
  | [] => []
  | c :: r =>
    if c = 'Z' then '+' :: '0' :: '0' :: ':' :: '0' :: '0' :: replaceZ r
    else c :: replaceZ r

/-- Replacement of every `"+0000"` by `"+00:00"` (left to right, non-overlapping),
modelling `.replace('+0000', '+00:00')`. -/
def replacePlus0000 : List Char → List Char
  | '+' :: '0' :: '0' :: '0' :: '0' :: r => '+' :: '0' :: '0' :: ':' :: '0' :: '0' :: replacePlus0000 r
  | c :: r => c :: replacePlus0000 r
  | [] => []

/-- Take exactly `k` leading decimal digits, returning their value and the rest. -/
def parseFixedDigits (k : ℕ) (l : List Char) : Option (ℕ × List Char) :=
  let pre := l.take k
  if pre.length = k then (digitsVal? pre).map (fun n => (n, l.drop k)) else none

/-- Expect a specific leading character. -/
def expectChar (c : Char) : List Char → Option (List Char)
  | [] => none
  | a :: r => if a = c then some r else none

/-- Leap-year test of the proleptic Gregorian calendar. -/
def isLeap (y : ℕ) : Bool := (y % 4 = 0 && y % 100 ≠ 0) || y % 400 = 0

/-- Number of days in a month of the proleptic Gregorian calendar. -/
def daysInMonth (y mo : ℕ) : ℕ :=
  if mo = 2 then (if isLeap y then 29 else 28)
  else if mo = 4 || mo = 6 || mo = 9 || mo = 11 then 30
  else 31

/-- Days since the Unix epoch of a civil date (standard era-based algorithm). -/
def daysFromCivil (y mo d : ℕ) : Int :=
  let y' : Int := if mo ≤ 2 then (y : Int) - 1 else (y : Int)
  let era : Int := (if 0 ≤ y' then y' else y' - 399) / 400
  let yoe : Int := y' - era * 400
  let mp : Int := ((mo : Int) + 9) % 12
  let doy : Int := (153 * mp + 2) / 5 + (d : Int) - 1
  let doe : Int := yoe * 365 + yoe / 4 - yoe / 100 + doy
  era * 146097 + doe - 719468

/-- Parse an optional fractional-seconds clause `.digits`, returning its value. -/
def parseFrac : List Char → Option (ℚ × List Char)
  | [] => some (0, [])
  | c :: r =>
    if c = '.' then
      let ds := r.takeWhile Char.isDigit
      if ds.isEmpty then none
      else (digitsVal? ds).map (fun n => ((n : ℚ) / (10 : ℚ) ^ ds.length, r.drop ds.length))
    else some (0, c :: r)

/-- Parse an optional `±HH:MM` timezone offset closing the string, returning the
offset in seconds; an empty rest yields offset 0 (a naive timestamp, read as UTC). -/
def parseOffset : List Char → Option ℚ
  | [] => some 0
  | c :: r =>
    if c = '+' || c = '-' then do
      let (oh, r1) ← parseFixedDigits 2 r
      let r2 ← expectChar ':' r1
      let (om, r3) ← parseFixedDigits 2 r2
      if r3.isEmpty && oh ≤ 23 && om ≤ 59 then
        let secs : ℚ := (oh : ℚ) * 3600 + (om : ℚ) * 60
        some (if c = '-' then -secs else secs)
      else none
    else none

/-- Model of `datetime.fromisoformat(s).timestamp()` on the replaced string:
requires `YYYY-MM-DDTHH:MM:SS`, then optional fractional seconds and optional
`±HH:MM` offset, validates calendar and clock ranges, and yields epoch seconds. -/
def isoDateTime? (l : List Char) : Option ℚ := do
  let (y, l1) ← parseFixedDigits 4 l
  let l2 ← expectChar '-' l1
  let (mo, l3) ← parseFixedDigits 2 l2
  let l4 ← expectChar '-' l3
  let (d, l5) ← parseFixedDigits 2 l4
  let l6 ← expectChar 'T' l5
  let (h, l7) ← parseFixedDigits 2 l6
  let l8 ← expectChar ':' l7
  let (mi, l9) ← parseFixedDigits 2 l8
  let l10 ← expectChar ':' l9
  let (se, l11) ← parseFixedDigits 2 l10
  let (frac, l12) ← parseFrac l11
  let off ← parseOffset l12
  if 1 ≤ y && y ≤ 9999 && 1 ≤ mo && mo ≤ 12 && 1 ≤ d && d ≤ daysInMonth y mo &&
      h ≤ 23 && mi ≤ 59 && se ≤ 59 then
    some (((daysFromCivil y mo d : ℚ) * 86400 + (h : ℚ) * 3600 + (mi : ℚ) * 60 + (se : ℚ) + frac) - off)
  else none

/-- ISO branch of `_parse_timestamp`: apply the two replacements, then parse. -/
def isoTimestamp? (s : String) : Option ℚ := isoDateTime? (replacePlus0000 (replaceZ s.data))

/-- Body of the `try` block of `_parse_timestamp`: the ISO branch when the string
contains `'T'`, otherwise the plain-float branch; `none` models a raised exception. -/
def parse_timestamp_attempt (s : String) : Option ℚ :=
  if s.data.contains 'T' then isoTimestamp? s else pyFloat? s

/-- Embedding of `G1EnhancedParser._parse_timestamp` (parse_g1_regions.py,
lines 128-139): the attempted parse with the `except` clause returning `0.0`. -/
def parse_timestamp (s : String) : ℚ :=
  match parse_timestamp_attempt s with
  | some q => q
  | none => 0

/-- C7: the timestamp normalizer is total and fails soft: it is a function
returning a rational (the model of a Python float) for every input string, the
strings its attempted parse cannot handle yield the sentinel `0.0`, and a
successful attempt is passed through unchanged. -/
theorem c7_timestamp_fails_soft (s : String) :
    (parse_timestamp_attempt s = none → parse_timestamp s = 0) ∧
    (∀ q, parse_timestamp_attempt s = some q → parse_timestamp s = q) := by
  constructor
  · intro h
    simp [parse_timestamp, h]
  · intro q h
    simp [parse_timestamp, h]

/-- Witness for C7: a garbage string in the float branch and an out-of-range
date in the ISO branch both yield the sentinel `0.0`, while a plain decimal
timestamp parses to its value. -/
theorem c7_timestamp_fails_soft_witness :
    parse_timestamp "garbage" = 0 ∧ parse_timestamp "2025-99-99T00:00:00" = 0 ∧
    parse_timestamp "12.5" = 25 / 2 := by
  refine ⟨(c7_timestamp_fails_soft "garbage").1 (by decide),
    (c7_timestamp_fails_soft "2025-99-99T00:00:00").1 (by decide),
    (c7_timestamp_fails_soft "12.5").2 (25 / 2) ?_⟩
  have h : parse_timestamp_attempt "12.5"
      = some (((12 : ℕ) : ℚ) + ((5 : ℕ) : ℚ) / (10 : ℚ) ^ (1 : ℕ)) := rfl
  rw [h]
  norm_num

/-! Embedding of the two heap_plotter.py pause-log parsers,
`parse_gc_log` (lines 964-1042, elapsed-seconds dialect) and
`parse_modern_gc_log` (lines 321-428, structured-timestamp dialect).

The regular-expression layer is embedded at the classified-line level: a line
of the log is represented by the outcome of matching it against the dialect's
patterns (the capture groups of the first matching pattern, or no match).  The
patterns are mutually exclusive by their anchor substrings, as the
specification notes; numeric capture groups `(\d+)` are modelled as `ℕ` and
`(\d+\.\d+)` as the exact decimal rational the Python `float` conversion
receives.  Python floats are modelled as `ℚ` together with the explicit
`ScalingVal` value below for the one place the code can produce `float('inf')`. -/

/-- Result of the expression `user_time / real_time if real_time else float('inf')`:
a finite float (modelled exactly as a rational) or positive infinity. -/
inductive ScalingVal where
  | fin (q : ℚ)
  | posInf
deriving DecidableEq

/-- Scaling factor exactly as computed by both parsers (heap_plotter.py
lines 993 and 348): the quotient when `real` is truthy (non-zero), else infinity. -/
def scalingFactorOf (user real : ℚ) : ScalingVal :=
  if real ≠ 0 then ScalingVal.fin (user / real) else ScalingVal.posInf

/-- Row appended to `scaling_data` by both parsers. -/
structure ScalingRecord where
  runtime : ℚ
  userTime : ℚ
  sysTime : ℚ
  realTime : ℚ
  scalingFactor : ScalingVal
deriving DecidableEq

/-- Row appended to `gc_data` by both parsers. -/
structure GCRecord where
  runtime : ℚ
  heapBefore : ℕ
  heapAfter : ℕ
  totalHeap : ℕ
  totalHeapBefore : ℕ
  pauseName : String
  duration : ℚ
deriving DecidableEq

/-- Capture groups of the traditional pause pattern
`\[(\d+\.\d+)s\].*?Pause (\w+)(?: \((.*?)\))? ?(?:\((.*?)\))? (\d+)M->(\d+)M\((\d+)M\) (\d+\.\d+)ms`. -/
structure TradPauseCapture where
  runtime : ℚ
  pauseType : String
  description : Option String
  cause : Option String
  heapBefore : ℕ
  heapAfter : ℕ
  totalHeap : ℕ
  duration : ℚ
deriving DecidableEq

/-- Capture groups of the traditional scaling pattern
`\[(\d+\.\d+)s\].*?GC\(\d+\) User=(\d+\.\d+)s Sys=(\d+\.\d+)s Real=(\d+\.\d+)s`. -/
structure TradScalingCapture where
  runtime : ℚ
  userTime : ℚ
  sysTime : ℚ
  realTime : ℚ
deriving DecidableEq

/-- Classified traditional-dialect line: the loop body of `parse_gc_log` tests
the G1-marker patterns, the scaling pattern, the pause pattern and the JDK
version pattern independently on each line, so a line is represented by the
four independent match outcomes. -/
structure TradLine where
  g1 : Bool
  scaling : Option TradScalingCapture
  pause : Option TradPauseCapture
  version : Option String
deriving DecidableEq

/-- Mutable state threaded through the line loop of `parse_gc_log` (and of
`parse_modern_gc_log`, whose loop keeps the same variables). -/
structure TradState where
  isG1 : Bool
  scalingData : List ScalingRecord
  gcData : List GCRecord
  jdkVersion : Option String
  prevTotalHeap : ℕ
deriving DecidableEq

/-- Initial loop state: `is_g1 = False`, empty data lists, `jdk_version = None`,
`prev_total_heap = 0`. -/
def tradInit : TradState := ⟨false, [], [], none, 0⟩

/-- Effect of the G1-marker check: `if <marker>: is_g1 = True`. -/
def stepG1 (st : TradState) (g : Bool) : TradState :=
  if g then { st with isG1 := true } else st

/-- Effect of a traditional scaling match: append the scaling row. -/
def stepScaling (st : TradState) : Option TradScalingCapture → TradState
  | some c =>
    { st with scalingData := st.scalingData ++
        [⟨c.runtime, c.userTime, c.sysTime, c.realTime, scalingFactorOf c.userTime c.realTime⟩] }
  | none => st

/-- Effect of a traditional pause match: append the gc row, chaining
`TotalHeapBefore := prev_total_heap` and updating `prev_total_heap` to the
captured total heap (heap_plotter.py lines 1019-1029). -/
def stepPause (st : TradState) : Option TradPauseCapture → TradState
  | some c =>
    { st with
      gcData := st.gcData ++ [⟨c.runtime, c.heapBefore, c.heapAfter, c.totalHeap,
        st.prevTotalHeap, composePauseName c.pauseType c.description c.cause, c.duration⟩],
      prevTotalHeap := c.totalHeap }
  | none => st

/-- Effect of a JDK-version match: overwrite `jdk_version`. -/
def stepVersion (st : TradState) : Option String → TradState
  | some v => { st with jdkVersion := some v }
  | none => st

/-- One iteration of the `parse_gc_log` line loop, in source order: G1 marker,
scaling match, pause match, version match. -/
def tradStep (st : TradState) (l : TradLine) : TradState :=
  stepVersion (stepPause (stepScaling (stepG1 st l.g1) l.scaling) l.pause) l.version

/-- Full line loop of `parse_gc_log`. -/
def tradRaw (lines : List TradLine) : TradState := lines.foldl tradStep tradInit

/-- Values returned by a successful parse. -/
structure TradResult where
  gcData : List GCRecord
  scalingData : List ScalingRecord
  isG1 : Bool
  jdkVersion : Option String
deriving DecidableEq

/-- Message of the `ValueError` raised by `parse_gc_log` when no pause rows
were extracted (heap_plotter.py line 1038). -/
def emptyGcMessage : String :=
  "Parsed data is empty. The log file may not contain expected GC log entries."

/-- Embedding of `parse_gc_log` (heap_plotter.py lines 964-1042): run the line
loop, raise (model: `Except.error`) when `gc_data` is empty, otherwise return
the collected data; no timestamp normalization is performed in this dialect. -/
def parse_gc_log (lines : List TradLine) : Except String TradResult :=
  if (tradRaw lines).gcData.isEmpty then Except.error emptyGcMessage
  else Except.ok ⟨(tradRaw lines).gcData, (tradRaw lines).scalingData,
    (tradRaw lines).isG1, (tradRaw lines).jdkVersion⟩

/-- Capture groups of the modern pause pattern (heap_plotter.py line 324); the
pid, tid and level groups are captured but unused by the loop body and are
omitted here. -/
structure ModernPauseCapture where
  ts : String
  gcId : ℕ
  pauseType : String
  description : Option String
  cause : Option String
  heapBefore : ℕ
  heapAfter : ℕ
  totalHeap : ℕ
  duration : ℚ
deriving DecidableEq

/-- Capture groups of the modern scaling pattern (heap_plotter.py line 325);
pid, tid and level are likewise unused and omitted. -/
structure ModernScalingCapture where
  ts : String
  gcId : ℕ
  userTime : ℚ
  sysTime : ℚ
  realTime : ℚ
deriving DecidableEq

/-- Classified structured-timestamp-dialect line, with the same independent
match structure as `TradLine` (`"Using G1" in line` marker, scaling pattern,
pause pattern, version pattern). -/
structure ModernLine where
  usingG1 : Bool
  scaling : Option ModernScalingCapture
  pause : Option ModernPauseCapture
  version : Option String
deriving DecidableEq

/-- Effect of a modern scaling match: the timestamp string goes through
`_parse_timestamp` (heap_plotter.py line 346). -/
def stepScalingM (st : TradState) : Option ModernScalingCapture → TradState
  | some c =>
    { st with scalingData := st.scalingData ++
        [⟨parse_timestamp c.ts, c.userTime, c.sysTime, c.realTime,
          scalingFactorOf c.userTime c.realTime⟩] }
  | none => st

/-- Effect of a modern pause match (heap_plotter.py lines 358-387), with the
same capacity chaining as the traditional parser. -/
def stepPauseM (st : TradState) : Option ModernPauseCapture → TradState
  | some c =>
    { st with
      gcData := st.gcData ++ [⟨parse_timestamp c.ts, c.heapBefore, c.heapAfter, c.totalHeap,
        st.prevTotalHeap, composePauseNameModern c.pauseType c.description c.cause, c.duration⟩],
      prevTotalHeap := c.totalHeap }
  | none => st

/-- One iteration of the `parse_modern_gc_log` line loop, in source order. -/
def modernStep (st : TradState) (l : ModernLine) : TradState :=
  stepVersion (stepPauseM (stepScalingM (stepG1 st l.usingG1) l.scaling) l.pause) l.version

/-- Full line loop of `parse_modern_gc_log`. -/
def modernRaw (lines : List ModernLine) : TradState := lines.foldl modernStep tradInit

/-- Fallback row inserted by `parse_modern_gc_log` when no pause rows were
extracted (heap_plotter.py lines 395-405): a single zeroed record named
"No GC Data", deliberately populating the otherwise-empty frame. -/
def noGcDataRecord : GCRecord := ⟨0, 0, 0, 0, 0, "No GC Data", 0⟩

/-- Fallback scaling row inserted when no scaling rows were extracted
(heap_plotter.py lines 407-414); note its `ScalingFactor` is the float `0.0`. -/
def noScalingRecord : ScalingRecord := ⟨0, 0, 0, 0, ScalingVal.fin 0⟩

/-- Fallback insertion for the gc batch. -/
def withFallbackGc (l : List GCRecord) : List GCRecord :=
  if l.isEmpty then [noGcDataRecord] else l

/-- Fallback insertion for the scaling batch. -/
def withFallbackSc (l : List ScalingRecord) : List ScalingRecord :=
  if l.isEmpty then [noScalingRecord] else l

/-- Runtime column of a gc batch. -/
def runtimesOf (l : List GCRecord) : List ℚ := l.map (fun r => r.runtime)

/-- Runtime column of a scaling batch. -/
def runtimesSc (l : List ScalingRecord) : List ℚ := l.map (fun r => r.runtime)

/-- Minimum of a list of rationals (`0` on the empty list, which the callers
guard against exactly as the source guards with `if not df.empty`). -/
def qListMin : List ℚ → ℚ
  | [] => 0
  | q :: qs => qs.foldl min q

/-- Batch rebasing of the gc batch (heap_plotter.py lines 420-422): subtract the
minimum runtime from every row's runtime; applied only when the batch is
non-empty. -/
def rebaseGc (l : List GCRecord) : List GCRecord :=
  if l.isEmpty then l
  else l.map (fun r => { r with runtime := r.runtime - qListMin (runtimesOf l) })

/-- Batch rebasing of the scaling batch (heap_plotter.py lines 424-426). -/
def rebaseSc (l : List ScalingRecord) : List ScalingRecord :=
  if l.isEmpty then l
  else l.map (fun r => { r with runtime := r.runtime - qListMin (runtimesSc l) })

/-- Embedding of `parse_modern_gc_log` (heap_plotter.py lines 321-428): run the
line loop, insert fallback rows into empty batches, rebase each batch
independently, and return the result (this parser never raises on empty data). -/
def parse_modern_gc_log (lines : List ModernLine) : TradResult :=
  ⟨rebaseGc (withFallbackGc (modernRaw lines).gcData),
    rebaseSc (withFallbackSc (modernRaw lines).scalingData),
    (modernRaw lines).isG1, (modernRaw lines).jdkVersion⟩

/-! Lemmas about the line-loop steps of the two heap_plotter parsers. -/

@[simp] theorem stepG1_gcData (st : TradState) (g : Bool) : (stepG1 st g).gcData = st.gcData := by
  cases g <;> rfl

@[simp] theorem stepG1_scalingData (st : TradState) (g : Bool) :
    (stepG1 st g).scalingData = st.scalingData := by
  cases g <;> rfl

@[simp] theorem stepG1_prev (st : TradState) (g : Bool) :
    (stepG1 st g).prevTotalHeap = st.prevTotalHeap := by
  cases g <;> rfl

@[simp] theorem stepScaling_gcData (st : TradState) (o : Option TradScalingCapture) :
    (stepScaling st o).gcData = st.gcData := by
  cases o <;> rfl

@[simp] theorem stepScaling_prev (st : TradState) (o : Option TradScalingCapture) :
    (stepScaling st o).prevTotalHeap = st.prevTotalHeap := by
  cases o <;> rfl

@[simp] theorem stepScalingM_gcData (st : TradState) (o : Option ModernScalingCapture) :
    (stepScalingM st o).gcData = st.gcData := by
  cases o <;> rfl

@[simp] theorem stepScalingM_prev (st : TradState) (o : Option ModernScalingCapture) :
    (stepScalingM st o).prevTotalHeap = st.prevTotalHeap := by
  cases o <;> rfl

@[simp] theorem stepVersion_gcData (st : TradState) (o : Option String) :
    (stepVersion st o).gcData = st.gcData := by
  cases o <;> rfl

@[simp] theorem stepVersion_scalingData (st : TradState) (o : Option String) :
    (stepVersion st o).scalingData = st.scalingData := by
  cases o <;> rfl

@[simp] theorem stepVersion_prev (st : TradState) (o : Option String) :
    (stepVersion st o).prevTotalHeap = st.prevTotalHeap := by
  cases o <;> rfl

@[simp] theorem stepPause_scalingData (st : TradState) (o : Option TradPauseCapture) :
    (stepPause st o).scalingData = st.scalingData := by
  cases o <;> rfl

@[simp] theorem stepPauseM_scalingData (st : TradState) (o : Option ModernPauseCapture) :
    (stepPauseM st o).scalingData = st.scalingData := by
  cases o <;> rfl

/-! Capacity chaining (claim C3). -/

/-- Chaining property of a gc batch relative to a previous total-heap value:
each row's `TotalHeapBefore` equals the value carried in from the left, which
is then replaced by the row's own `TotalHeap`. -/
def chainFrom : ℕ → List GCRecord → Prop
  | _, [] => True
  | p, r :: rest => r.totalHeapBefore = p ∧ chainFrom r.totalHeap rest

/-- Value of `prev_total_heap` after a batch has been appended. -/
def lastTotalHeap : ℕ → List GCRecord → ℕ
  | p, [] => p
  | _, r :: rest => lastTotalHeap r.totalHeap rest

theorem chainFrom_append (l : List GCRecord) (p : ℕ) (r : GCRecord)
    (h : chainFrom p l) (hr : r.totalHeapBefore = lastTotalHeap p l) :
    chainFrom p (l ++ [r]) := by
  induction l generalizing p with
  | nil => exact ⟨hr, trivial⟩
  | cons a rest ih => exact ⟨h.1, ih a.totalHeap h.2 hr⟩

theorem lastTotalHeap_append (l : List GCRecord) (p : ℕ) (r : GCRecord) :
    lastTotalHeap p (l ++ [r]) = r.totalHeap := by
  induction l generalizing p with
  | nil => rfl
  | cons a rest ih => exact ih a.totalHeap

/-- Loop invariant of both heap parsers: the gc batch is chained from 0 and
`prev_total_heap` is the last appended total heap. -/
def TradInv (st : TradState) : Prop :=
  chainFrom 0 st.gcData ∧ st.prevTotalHeap = lastTotalHeap 0 st.gcData

theorem stepPause_inv (st : TradState) (o : Option TradPauseCapture) (h : TradInv st) :
    TradInv (stepPause st o) := by
  cases o with
  | none => exact h
  | some c =>
    constructor
    · exact chainFrom_append _ _ _ h.1 h.2
    · exact (lastTotalHeap_append st.gcData 0 ⟨c.runtime, c.heapBefore, c.heapAfter, c.totalHeap,
        st.prevTotalHeap, composePauseName c.pauseType c.description c.cause, c.duration⟩).symm

theorem stepPauseM_inv (st : TradState) (o : Option ModernPauseCapture) (h : TradInv st) :
    TradInv (stepPauseM st o) := by
  cases o with
  | none => exact h
  | some c =>
    constructor
    · exact chainFrom_append _ _ _ h.1 h.2
    · exact (lastTotalHeap_append st.gcData 0 ⟨parse_timestamp c.ts, c.heapBefore, c.heapAfter,
        c.totalHeap, st.prevTotalHeap, composePauseNameModern c.pauseType c.description c.cause,
        c.duration⟩).symm

theorem tradStep_inv (st : TradState) (l : TradLine) (h : TradInv st) :
    TradInv (tradStep st l) := by
  have h1 : TradInv (stepScaling (stepG1 st l.g1) l.scaling) :=
    ⟨by simpa using h.1, by simpa using h.2⟩
  have h2 := stepPause_inv _ l.pause h1
  exact ⟨by simpa [tradStep] using h2.1, by simpa [tradStep] using h2.2⟩

theorem modernStep_inv (st : TradState) (l : ModernLine) (h : TradInv st) :
    TradInv (modernStep st l) := by
  have h1 : TradInv (stepScalingM (stepG1 st l.usingG1) l.scaling) :=
    ⟨by simpa using h.1, by simpa using h.2⟩
  have h2 := stepPauseM_inv _ l.pause h1
  exact ⟨by simpa [modernStep] using h2.1, by simpa [modernStep] using h2.2⟩

theorem tradRaw_inv (lines : List TradLine) : TradInv (tradRaw lines) := by
  have main : ∀ (ls : List TradLine) (st : TradState), TradInv st → TradInv (ls.foldl tradStep st) := by
    intro ls
    induction ls with
    | nil => exact fun st h => h
    | cons a t ih => exact fun st h => ih _ (tradStep_inv _ _ h)
  exact main lines tradInit ⟨trivial, rfl⟩

theorem modernRaw_inv (lines : List ModernLine) : TradInv (modernRaw lines) := by
  have main : ∀ (ls : List ModernLine) (st : TradState), TradInv st → TradInv (ls.foldl modernStep st) := by
    intro ls
    induction ls with
    | nil => exact fun st h => h
    | cons a t ih => exact fun st h => ih _ (modernStep_inv _ _ h)
  exact main lines tradInit ⟨trivial, rfl⟩

/-- Index form of the capacity-chain property, exactly as claim C3 states it:
the first row's `TotalHeapBefore` is 0 and each later row's `TotalHeapBefore`
is the previous row's `TotalHeap`. -/
def CapacityChain (l : List GCRecord) : Prop :=
  (∀ h0 : 0 < l.length, (l.get ⟨0, h0⟩).totalHeapBefore = 0) ∧
  ∀ i : ℕ, ∀ hi : i + 1 < l.length,
    (l.get ⟨i + 1, hi⟩).totalHeapBefore = (l.get ⟨i, Nat.lt_of_succ_lt hi⟩).totalHeap

theorem chainFrom_get (l : List GCRecord) (p : ℕ) (h : chainFrom p l) :
    (∀ h0 : 0 < l.length, (l.get ⟨0, h0⟩).totalHeapBefore = p) ∧
    ∀ i : ℕ, ∀ hi : i + 1 < l.length,
      (l.get ⟨i + 1, hi⟩).totalHeapBefore = (l.get ⟨i, Nat.lt_of_succ_lt hi⟩).totalHeap := by
  induction l generalizing p with
  | nil =>
    constructor
    · intro h0; exact absurd h0 (Nat.lt_irrefl 0)
    · intro i hi; exact absurd hi (Nat.not_lt_zero (i + 1))
  | cons a rest ih =>
    obtain ⟨hb, hc⟩ := h
    constructor
    · intro _; exact hb
    · intro i hi
      cases i with
      | zero =>
        have h0 : 0 < rest.length := by simpa using hi
        exact (ih a.totalHeap hc).1 h0
      | succ j =>
        have hj : j + 1 < rest.length := by simpa using hi
        exact (ih a.totalHeap hc).2 j hj

theorem chainFrom_capacity (l : List GCRecord) (h : chainFrom 0 l) : CapacityChain l :=
  chainFrom_get l 0 h

theorem chainFrom_map_runtime (l : List GCRecord) (p : ℕ) (f : GCRecord → ℚ) :
    chainFrom p (l.map (fun r => { r with runtime := f r })) ↔ chainFrom p l := by
  induction l generalizing p with
  | nil => exact Iff.rfl
  | cons a rest ih => exact and_congr Iff.rfl (ih a.totalHeap)

theorem chainFrom_withFallbackGc (l : List GCRecord) (h : chainFrom 0 l) :
    chainFrom 0 (withFallbackGc l) := by
  cases l with
  | nil => exact ⟨rfl, trivial⟩
  | cons a rest => exact h

theorem chainFrom_rebaseGc (l : List GCRecord) (h : chainFrom 0 l) :
    chainFrom 0 (rebaseGc l) := by
  cases l with
  | nil => exact h
  | cons a rest => exact (chainFrom_map_runtime (a :: rest) 0 _).mpr h

/-- C3: in both dialect parsers, every parsed batch of heap pause events
satisfies the capacity chain: `events[i].TotalHeapBefore = events[i-1].TotalHeap`
for `i > 0` and `events[0].TotalHeapBefore = 0` — for the elapsed-seconds parser
on any successful parse, and for the structured-timestamp parser on every parse
(its fallback and rebasing steps preserve the chain). -/
theorem c3_capacity_chaining (tT : List TradLine) (tM : List ModernLine) (rT : TradResult)
    (hT : parse_gc_log tT = Except.ok rT) :
    CapacityChain rT.gcData ∧ CapacityChain (parse_modern_gc_log tM).gcData := by
  constructor
  · unfold parse_gc_log at hT
    split at hT
    · exact Except.noConfusion hT
    · injection hT with h2
      subst h2
      exact chainFrom_capacity _ (tradRaw_inv tT).1
  · have hinv := modernRaw_inv tM
    have hchain : chainFrom 0 (parse_modern_gc_log tM).gcData := by
      show chainFrom 0 (rebaseGc (withFallbackGc (modernRaw tM).gcData))
      exact chainFrom_rebaseGc _ (chainFrom_withFallbackGc _ hinv.1)
    exact chainFrom_capacity _ hchain

/-- Concrete input for the C3 witness: two traditional pause lines and one
modern pause line. -/
def c3wT : List TradLine :=
  [⟨false, none, some ⟨5, "Young", none, some "G1 Evacuation Pause", 100, 50, 512, 3⟩, none⟩,
   ⟨false, none, some ⟨7, "Full", none, none, 400, 100, 1024, 9⟩, none⟩]

def c3wM : List ModernLine :=
  [⟨false, none, some ⟨"10.5", 0, "Young", none, none, 10, 5, 64, 1⟩, none⟩]

def c3wR : TradResult :=
  ⟨[⟨5, 100, 50, 512, 0, "Young G1 Evacuation Pause", 3⟩,
    ⟨7, 400, 100, 1024, 512, "Full", 9⟩], [], false, none⟩

/-- Witness for C3 at a concrete two-pause input. -/
theorem c3_capacity_chaining_witness :
    CapacityChain c3wR.gcData ∧ CapacityChain (parse_modern_gc_log c3wM).gcData :=
  c3_capacity_chaining c3wT c3wM c3wR rfl

/-! Batch rebasing lemmas (claim C4). -/

theorem foldl_min_map_sub (qs : List ℚ) (a c : ℚ) :
    (qs.map (fun q => q - c)).foldl min (a - c) = qs.foldl min a - c := by
  induction qs generalizing a with
  | nil => rfl
  | cons q t ih =>
    simp only [List.map_cons, List.foldl_cons]
    rw [min_sub_sub_right a q c]
    exact ih (min a q)

theorem qListMin_map_sub (l : List ℚ) (c : ℚ) (h : l ≠ []) :
    qListMin (l.map (fun q => q - c)) = qListMin l - c := by
  cases l with
  | nil => exact absurd rfl h
  | cons q t => exact foldl_min_map_sub t q c

theorem runtimesOf_ne_nil (l : List GCRecord) (h : l ≠ []) : runtimesOf l ≠ [] := by
  cases l with
  | nil => exact absurd rfl h
  | cons a t => simp [runtimesOf]

theorem runtimesSc_ne_nil (l : List ScalingRecord) (h : l ≠ []) : runtimesSc l ≠ [] := by
  cases l with
  | nil => exact absurd rfl h
  | cons a t => simp [runtimesSc]

theorem runtimesOf_rebaseGc (l : List GCRecord) :
    runtimesOf (rebaseGc l)
      = (runtimesOf l).map (fun q => q - qListMin (runtimesOf l)) := by
  cases l with
  | nil => rfl
  | cons a rest =>
    rw [show rebaseGc (a :: rest) = (a :: rest).map
        (fun r => { r with runtime := r.runtime - qListMin (runtimesOf (a :: rest)) }) from rfl]
    simp only [runtimesOf, List.map_map]
    rfl

theorem runtimesSc_rebaseSc (l : List ScalingRecord) :
    runtimesSc (rebaseSc l)
      = (runtimesSc l).map (fun q => q - qListMin (runtimesSc l)) := by
  cases l with
  | nil => rfl
  | cons a rest =>
    rw [show rebaseSc (a :: rest) = (a :: rest).map
        (fun r => { r with runtime := r.runtime - qListMin (runtimesSc (a :: rest)) }) from rfl]
    simp only [runtimesSc, List.map_map]
    rfl

theorem qListMin_rebaseGc (l : List GCRecord) (h : l ≠ []) :
    qListMin (runtimesOf (rebaseGc l)) = 0 := by
  rw [runtimesOf_rebaseGc, qListMin_map_sub _ _ (runtimesOf_ne_nil l h)]
  exact sub_self _

theorem qListMin_rebaseSc (l : List ScalingRecord) (h : l ≠ []) :
    qListMin (runtimesSc (rebaseSc l)) = 0 := by
  rw [runtimesSc_rebaseSc, qListMin_map_sub _ _ (runtimesSc_ne_nil l h)]
  exact sub_self _

theorem withFallbackGc_ne_nil (l : List GCRecord) : withFallbackGc l ≠ [] := by
  cases l <;> simp [withFallbackGc]

theorem withFallbackSc_ne_nil (l : List ScalingRecord) : withFallbackSc l ≠ [] := by
  cases l <;> simp [withFallbackSc]

theorem getD_map_sub (l : List ℚ) (c : ℚ) (i : ℕ) (h : i < l.length) :
    (l.map (fun q => q - c)).getD i 0 = l.getD i 0 - c := by
  induction l generalizing i with
  | nil => exact absurd h (Nat.not_lt_zero i)
  | cons a t ih =>
    cases i with
    | zero => rfl
    | succ k => exact ih k (by simpa using h)

/-- Modern pause token input for the C4 witness. -/
def c4wM : List ModernLine :=
  [⟨false, none, some ⟨"8.0", 0, "Young", none, none, 10, 5, 64, 1⟩, none⟩,
   ⟨false, none, some ⟨"9.5", 1, "Full", none, none, 40, 8, 64, 2⟩, none⟩]

/-- C4 (amended): batch rebasing happens only in the structured-timestamp
parser; there, for every log buffer, both the pause batch and the scaling batch
are independently rebased by subtracting their own minimum runtime, after which
each batch's minimum runtime is 0 and the relative order of any two rows by
original runtime is preserved. -/
theorem c4_batch_rebasing_amended (tM : List ModernLine) :
    qListMin (runtimesOf (parse_modern_gc_log tM).gcData) = 0
  ∧ qListMin (runtimesSc (parse_modern_gc_log tM).scalingData) = 0
  ∧ runtimesOf (parse_modern_gc_log tM).gcData
      = (runtimesOf (withFallbackGc (modernRaw tM).gcData)).map
          (fun q => q - qListMin (runtimesOf (withFallbackGc (modernRaw tM).gcData)))
  ∧ runtimesSc (parse_modern_gc_log tM).scalingData
      = (runtimesSc (withFallbackSc (modernRaw tM).scalingData)).map
          (fun q => q - qListMin (runtimesSc (withFallbackSc (modernRaw tM).scalingData)))
  ∧ ∀ i j : ℕ, i < (runtimesOf (withFallbackGc (modernRaw tM).gcData)).length →
      j < (runtimesOf (withFallbackGc (modernRaw tM).gcData)).length →
      ((runtimesOf (parse_modern_gc_log tM).gcData).getD i 0
          ≤ (runtimesOf (parse_modern_gc_log tM).gcData).getD j 0
        ↔ (runtimesOf (withFallbackGc (modernRaw tM).gcData)).getD i 0
          ≤ (runtimesOf (withFallbackGc (modernRaw tM).gcData)).getD j 0) := by
  have hgc : (parse_modern_gc_log tM).gcData = rebaseGc (withFallbackGc (modernRaw tM).gcData) := rfl
  have hsc : (parse_modern_gc_log tM).scalingData
      = rebaseSc (withFallbackSc (modernRaw tM).scalingData) := rfl
  refine ⟨?_, ?_, ?_, ?_, ?_⟩
  · rw [hgc]; exact qListMin_rebaseGc _ (withFallbackGc_ne_nil _)
  · rw [hsc]; exact qListMin_rebaseSc _ (withFallbackSc_ne_nil _)
  · rw [hgc]; exact runtimesOf_rebaseGc _
  · rw [hsc]; exact runtimesSc_rebaseSc _
  · intro i j hi hj
    rw [hgc, runtimesOf_rebaseGc, getD_map_sub _ _ _ hi, getD_map_sub _ _ _ hj]
    exact sub_le_sub_iff_right _

/-- Witness for the amended C4 at a concrete two-pause modern input. -/
theorem c4_batch_rebasing_amended_witness :
    qListMin (runtimesOf (parse_modern_gc_log c4wM).gcData) = 0
  ∧ ((runtimesOf (parse_modern_gc_log c4wM).gcData).getD 0 0
        ≤ (runtimesOf (parse_modern_gc_log c4wM).gcData).getD 1 0
      ↔ (runtimesOf (withFallbackGc (modernRaw c4wM).gcData)).getD 0 0
        ≤ (runtimesOf (withFallbackGc (modernRaw c4wM).gcData)).getD 1 0) :=
  ⟨(c4_batch_rebasing_amended c4wM).1,
   (c4_batch_rebasing_amended c4wM).2.2.2.2 0 1 (by decide) (by decide)⟩

/-- Traditional pause token input for the C4 counterexample. -/
def c4tradLine : TradLine := ⟨false, none, some ⟨5, "Young", none, none, 10, 2, 64, 1⟩, none⟩

/-- Counterexample for C4 as stated: the elapsed-seconds parser performs no
rebasing, so a buffer with a single pause at runtime 5 parses to a batch whose
minimum timestamp is 5, not 0. -/
theorem c4_counterexample :
    parse_gc_log [c4tradLine] = Except.ok ⟨[⟨5, 10, 2, 64, 0, "Young", 1⟩], [], false, none⟩
  ∧ qListMin (runtimesOf [(⟨5, 10, 2, 64, 0, "Young", 1⟩ : GCRecord)]) = 5
  ∧ (5 : ℚ) ≠ 0 := by
  refine ⟨rfl, rfl, by norm_num⟩

/-! Empty-result signaling (claim C5). -/

theorem tradRaw_gcData_of_no_pause (lines : List TradLine)
    (h : ∀ l ∈ lines, l.pause = none) : (tradRaw lines).gcData = [] := by
  have main : ∀ (ls : List TradLine) (st : TradState), (∀ l ∈ ls, l.pause = none) →
      (ls.foldl tradStep st).gcData = st.gcData := by
    intro ls
    induction ls with
    | nil => exact fun st _ => rfl
    | cons a t ih =>
      intro st hs
      have ha : a.pause = none := hs a (by simp)
      have ht : ∀ l ∈ t, l.pause = none := fun l hl => hs l (by simp [hl])
      rw [List.foldl_cons, ih _ ht]
      simp [tradStep, ha, stepPause]
  exact main lines tradInit h

theorem modernRaw_gcData_of_no_pause (lines : List ModernLine)
    (h : ∀ l ∈ lines, l.pause = none) : (modernRaw lines).gcData = [] := by
  have main : ∀ (ls : List ModernLine) (st : TradState), (∀ l ∈ ls, l.pause = none) →
      (ls.foldl modernStep st).gcData = st.gcData := by
    intro ls
    induction ls with
    | nil => exact fun st _ => rfl
    | cons a t ih =>
      intro st hs
      have ha : a.pause = none := hs a (by simp)
      have ht : ∀ l ∈ t, l.pause = none := fun l hl => hs l (by simp [hl])
      rw [List.foldl_cons, ih _ ht]
      simp [modernStep, ha, stepPauseM]
  exact main lines tradInit h

/-- C5 (amended): when zero pause events are extracted, only the
elapsed-seconds parser signals a distinguishable empty outcome (it raises
`ValueError`); the structured-timestamp parser instead fabricates a single
sentinel record named "No GC Data" with zeroed fields — a populated but
degenerate record set. -/
theorem c5_empty_result_amended (tT : List TradLine) (tM : List ModernLine)
    (hT : ∀ l ∈ tT, l.pause = none) (hM : ∀ l ∈ tM, l.pause = none) :
    parse_gc_log tT = Except.error emptyGcMessage
  ∧ (parse_modern_gc_log tM).gcData = [noGcDataRecord] := by
  constructor
  · have h1 : (tradRaw tT).gcData = [] := tradRaw_gcData_of_no_pause tT hT
    unfold parse_gc_log
    simp [h1]
  · have h1 : (modernRaw tM).gcData = [] := modernRaw_gcData_of_no_pause tM hM
    show rebaseGc (withFallbackGc (modernRaw tM).gcData) = [noGcDataRecord]
    rw [h1]
    show rebaseGc [noGcDataRecord] = [noGcDataRecord]
    simp [rebaseGc, runtimesOf, qListMin, noGcDataRecord]

/-- Concrete pause-free inputs for the C5 witness. -/
def c5wT : List TradLine := [⟨true, none, none, some "21.0.1"⟩]

def c5wM : List ModernLine := [⟨true, none, none, none⟩]

/-- Witness for the amended C5. -/
theorem c5_empty_result_amended_witness :
    parse_gc_log c5wT = Except.error emptyGcMessage
  ∧ (parse_modern_gc_log c5wM).gcData = [noGcDataRecord] :=
  c5_empty_result_amended c5wT c5wM (by decide) (by decide)

/-- Counterexample for C5 as stated: on an empty buffer the
structured-timestamp parser returns a populated record set — one fabricated
"No GC Data" row — instead of an empty-result signal. -/
theorem c5_counterexample :
    (parse_modern_gc_log []).gcData.length = 1
  ∧ (parse_modern_gc_log []).gcData.map (fun r => r.pauseName) = ["No GC Data"] := by
  constructor
  · rfl
  · rfl

/-! Scaling factor (claim C6). -/

/-- Property claimed of every parsed scaling row: the stored factor is
`user / real`, and `+infinity` exactly when `real = 0`. -/
def scalingOk (r : ScalingRecord) : Prop :=
  r.scalingFactor
    = if r.realTime = 0 then ScalingVal.posInf else ScalingVal.fin (r.userTime / r.realTime)

theorem scalingFactorOf_ok (t u sy re : ℚ) :
    scalingOk ⟨t, u, sy, re, scalingFactorOf u re⟩ := by
  by_cases h : re = 0 <;> simp [scalingOk, scalingFactorOf, h]

theorem stepScaling_scalingOk (st : TradState) (o : Option TradScalingCapture)
    (h : ∀ r ∈ st.scalingData, scalingOk r) :
    ∀ r ∈ (stepScaling st o).scalingData, scalingOk r := by
  cases o with
  | none => exact h
  | some c =>
    intro r hr
    rcases List.mem_append.mp hr with h1 | h1
    · exact h r h1
    · have h2 := List.mem_singleton.mp h1
      subst h2
      exact scalingFactorOf_ok _ _ _ _

theorem stepScalingM_scalingOk (st : TradState) (o : Option ModernScalingCapture)
    (h : ∀ r ∈ st.scalingData, scalingOk r) :
    ∀ r ∈ (stepScalingM st o).scalingData, scalingOk r := by
  cases o with
  | none => exact h
  | some c =>
    intro r hr
    rcases List.mem_append.mp hr with h1 | h1
    · exact h r h1
    · have h2 := List.mem_singleton.mp h1
      subst h2
      exact scalingFactorOf_ok _ _ _ _

theorem tradStep_scalingOk (st : TradState) (l : TradLine)
    (h : ∀ r ∈ st.scalingData, scalingOk r) :
    ∀ r ∈ (tradStep st l).scalingData, scalingOk r := by
  intro r hr
  have h2 : ∀ r ∈ (stepScaling (stepG1 st l.g1) l.scaling).scalingData, scalingOk r := by
    apply stepScaling_scalingOk
    intro x hx
    rw [stepG1_scalingData] at hx
    exact h x hx
  apply h2
  have he : (tradStep st l).scalingData
      = (stepScaling (stepG1 st l.g1) l.scaling).scalingData := by
    simp [tradStep]
  rwa [he] at hr

theorem modernStep_scalingOk (st : TradState) (l : ModernLine)
    (h : ∀ r ∈ st.scalingData, scalingOk r) :
    ∀ r ∈ (modernStep st l).scalingData, scalingOk r := by
  intro r hr
  have h2 : ∀ r ∈ (stepScalingM (stepG1 st l.usingG1) l.scaling).scalingData, scalingOk r := by
    apply stepScalingM_scalingOk
    intro x hx
    rw [stepG1_scalingData] at hx
    exact h x hx
  apply h2
  have he : (modernStep st l).scalingData
      = (stepScalingM (stepG1 st l.usingG1) l.scaling).scalingData := by
    simp [modernStep]
  rwa [he] at hr

/-- C6: for every parsed scaling line, in both dialect parsers, the stored
scaling factor equals `user_s / real_s`, and equals positive infinity exactly
when `real_s = 0`; the guarded expression never divides by zero. -/
theorem c6_scaling_factor (tT : List TradLine) (tM : List ModernLine) :
    (∀ r ∈ (tradRaw tT).scalingData, scalingOk r)
  ∧ (∀ r ∈ (modernRaw tM).scalingData, scalingOk r) := by
  constructor
  · have main : ∀ (ls : List TradLine) (st : TradState),
        (∀ r ∈ st.scalingData, scalingOk r) →
        ∀ r ∈ (ls.foldl tradStep st).scalingData, scalingOk r := by
      intro ls
      induction ls with
      | nil => exact fun st h => h
      | cons a t ih => exact fun st h => ih _ (tradStep_scalingOk _ _ h)
    exact main tT tradInit (by simp [tradInit])
  · have main : ∀ (ls : List ModernLine) (st : TradState),
        (∀ r ∈ st.scalingData, scalingOk r) →
        ∀ r ∈ (ls.foldl modernStep st).scalingData, scalingOk r := by
      intro ls
      induction ls with
      | nil => exact fun st h => h
      | cons a t ih => exact fun st h => ih _ (modernStep_scalingOk _ _ h)
    exact main tM tradInit (by simp [tradInit])

/-- Concrete scaling inputs for the C6 witness: a finite factor in the
traditional dialect and a zero `real` in the modern dialect. -/
def c6wT : List TradLine := [⟨false, some ⟨1, 4, 1, 2⟩, none, none⟩]

def c6wM : List ModernLine := [⟨false, some ⟨"3.5", 0, 5, 0, 0⟩, none, none⟩]

/-- Witness for C6: the record built from `User=4 Real=2` satisfies the claimed
equation with finite value 2, and the record built from `Real=0` carries
positive infinity. -/
theorem c6_scaling_factor_witness :
    scalingOk ⟨1, 4, 1, 2, scalingFactorOf 4 2⟩
  ∧ scalingOk ⟨parse_timestamp "3.5", 5, 0, 0, scalingFactorOf 5 0⟩
  ∧ scalingFactorOf 4 2 = ScalingVal.fin 2
  ∧ scalingFactorOf 5 0 = ScalingVal.posInf := by
  refine ⟨(c6_scaling_factor c6wT c6wM).1 _ (List.mem_singleton.mpr rfl),
    (c6_scaling_factor c6wT c6wM).2 _ (List.mem_singleton.mpr rfl), ?_, ?_⟩
  · rw [show scalingFactorOf 4 2 = ScalingVal.fin (4 / 2) from by norm_num [scalingFactorOf]]
    norm_num
  · simp [scalingFactorOf]

/-! Embedding of the sizing-event state machine of `parse_g1_regions.py`
(`G1EnhancedParser._parse_line` and `_parse_sizing_line`, lines 159-626).

Lines are represented at the classified level: one `G1Kind` constructor per
regular-expression pattern of `_init_patterns`, carrying the numeric and
textual capture groups; the patterns are mutually exclusive by their literal
anchor text, and `_parse_sizing_line` dispatches on the first matching pattern
and returns.  Each token also carries the timestamp string that
`_extract_timestamp` yields for the line (`none` when no timestamp pattern
matches, in which case `_parse_sizing_line` returns immediately).

The parser object state relevant to sizing consists of `_region_size`,
`_current_eval` (a mutable dict that can hold a reference to an already
appended `SizingEntry`, modelled as an index into the entry list) and
`sizing_entries`.  The `region_data` lists filled by `_parse_traditional_line`
and `_parse_modern_line` are disjoint from this state and are not modelled
here. -/

/-- Data class `SizingEntry` of parse_g1_regions.py (lines 42-63); the `notes`
field is never assigned by the parser and is omitted. -/
structure SizingEntry where
  timestamp : String
  sizing_type : String
  sizing_mode : Option String := none
  evaluation_interval_ms : Option ℕ := none
  uncommit_delay_ms : Option ℕ := none
  inactive_regions : Option ℕ := none
  inactive_required : Option ℕ := none
  requested_regions : Option ℕ := none
  total_empty_regions : Option ℕ := none
  uncommit_regions : Option ℕ := none
  uncommit_mb : Option ℚ := none
  shrink_mb : Option ℚ := none
  heap_size_mb : Option ℚ := none
  heap_bytes : Option ℕ := none
  min_heap_bytes : Option ℕ := none
  region_id : Option ℕ := none
  last_access_ms : Option ℕ := none
  transition_state : Option String := none
deriving DecidableEq

/-- The `_current_eval` dict: every key it can hold, absent keys being `none`;
`entry` holds the index into `sizing_entries` of the entry the dict references
(Python holds an object reference; the index models the aliasing). -/
structure CurrentEval where
  timestamp : Option String := none
  inactive_regions : Option ℕ := none
  inactive_required : Option ℕ := none
  requested_regions : Option ℕ := none
  total_empty_regions : Option ℕ := none
  uncommit_regions : Option ℕ := none
  shrink_mb : Option ℕ := none
  heap_bytes : Option ℕ := none
  min_heap_bytes : Option ℕ := none
  entry : Option ℕ := none
deriving DecidableEq

/-- Sizing-relevant parser state of `G1EnhancedParser`. -/
structure G1State where
  region_size : ℕ := 0
  current_eval : CurrentEval := {}
  sizing_entries : List SizingEntry := []
deriving DecidableEq

/-- Initial parser state (`__init__`, lines 73-79). -/
def g1Init : G1State := {}

/-- Classified sizing line: one constructor per pattern of `_init_patterns`,
in the dispatch order of `_parse_sizing_line`, plus the `regionSize` header
handled directly by `_parse_line` and `unmatched` for every other line. -/
inductive G1Kind where
  | regionSize (mb : ℕ)
  | status (enabled : Bool) (mode : Option String)
  | init (mode : String)
  | paramsOld (ei ud : ℕ)
  | paramsNew (ei ud minR : ℕ)
  | legacyUncommit (regions : ℕ) (mb : ℚ) (inactive : ℕ)
  | shrinkEval (mb : ℕ)
  | noUncommitLegacy
  | shrinkCompleted (heap : ℕ)
  | shrinkDetails (regions mb heap : ℕ)
  | timeBasedUncommitted (regions mb heap : ℕ)
  | evalStart
  | evalScan
  | scanResult (inactive total : ℕ)
  | evalFound (inactive requested : ℕ)
  | evalFoundMin (inactive required : ℕ)
  | evalFoundUncommitting (inactive ur mb : ℕ)
  | heapEvalShrink (mb inactive required hb minb : ℕ)
  | heapEvalNoAction (inactive required hb minb : ℕ)
  | evalSummary (mb : ℕ)
  | evalNoAction (inactive required hb minb : ℕ)
  | evalNoActionSimple (n : ℕ)
  | request (mb cand : ℕ)
  | processing (ur totalEmpty : ℕ)
  | deactivated (n : ℕ)
  | candidate (rid la : ℕ)
  | deactivatingRegion (rid la : ℕ)
  | regionTransition (rid : ℕ) (fromS toS : String) (idle : ℕ)
  | unmatched
deriving DecidableEq

/-- Classified line together with the timestamp string `_extract_timestamp`
yields for it. -/
structure G1Line where
  ts : Option String
  kind : G1Kind
deriving DecidableEq

/-- Python `dict.setdefault('timestamp', t)` on the accumulator. -/
def setdefaultTs (ce : CurrentEval) (t : String) : CurrentEval :=
  match ce.timestamp with
  | none => { ce with timestamp := some t }
  | some _ => ce

/-- Mutation `eval_entry.shrink_mb = mb` through the accumulator's entry
reference (index `i`). -/
def setEntryShrink (entries : List SizingEntry) (i : ℕ) (mb : ℕ) : List SizingEntry :=
  match entries[i]? with
  | some e => entries.set i { e with shrink_mb := some (mb : ℚ) }
  | none => entries

/-- Mutations of the request branch: `eval_entry.shrink_mb = mb` and
`eval_entry.requested_regions = cand` when the latter was `None`. -/
def setEntryShrinkReq (entries : List SizingEntry) (i : ℕ) (mb cand : ℕ) : List SizingEntry :=
  match entries[i]? with
  | some e => entries.set i
      { e with
        shrink_mb := some (mb : ℚ),
        requested_regions :=
          (match e.requested_regions with | none => some cand | some r => some r) }
  | none => entries

/-- Fallback `inactive` of the deactivated branch (lines 570-574):
the accumulator value, defaulting to the deactivated count itself. -/
def deactInactive (st : G1State) (n : ℕ) : ℕ :=
  (st.current_eval.inactive_regions).getD n

/-- Fallback memory estimate of the deactivated branch (lines 571-576): the
accumulator-held shrink value; when absent, `deactivated * region_size` when a
region size is known (truthy), else `0`. -/
def deactShrinkMb (st : G1State) (n : ℕ) : ℕ :=
  match st.current_eval.shrink_mb with
  | some mb => mb
  | none => if st.region_size ≠ 0 then n * st.region_size else 0

/-- Fallback `requested` of the deactivated branch (lines 572-578): the
accumulator value, else its `inactive_required` when that is truthy (non-zero). -/
def deactRequested (st : G1State) : Option ℕ :=
  match st.current_eval.requested_regions with
  | some r => some r
  | none =>
    match st.current_eval.inactive_required with
    | some k => if k ≠ 0 then some k else none
    | none => none

/-- String stored as `sizing_mode` by the status branch: Python `mode or status`
(the mode capture when truthy, else the "enabled"/"disabled" status word). -/
def statusModeStr (enabled : Bool) (mode : Option String) : String :=
  match mode with
  | some m => if m.data.isEmpty then (if enabled then "enabled" else "disabled") else m
  | none => if enabled then "enabled" else "disabled"

/-- Dispatch of `_parse_sizing_line` over a classified line whose timestamp is
the non-empty string `t` (lines 203-626 of parse_g1_regions.py, branch by
branch in source order). -/
def sizingDispatch (st : G1State) (t : String) : G1Kind → G1State
  | G1Kind.status enabled mode =>
    { st with
      sizing_entries := st.sizing_entries ++
        [{ timestamp := t,
           sizing_type := if enabled then "heap_sizing_enabled" else "heap_sizing_disabled",
           sizing_mode := some (statusModeStr enabled mode) }] }
  | G1Kind.init mode =>
    { st with
      sizing_entries := st.sizing_entries ++
        [{ timestamp := t, sizing_type := "heap_sizing_init", sizing_mode := some mode }] }
  | G1Kind.paramsOld ei ud =>
    { st with
      sizing_entries := st.sizing_entries ++
        [{ timestamp := t,
           sizing_type := "sizing_parameters",
           evaluation_interval_ms := some ei,
           uncommit_delay_ms := some ud }] }
  | G1Kind.paramsNew ei ud minR =>
    { st with
      sizing_entries := st.sizing_entries ++
        [{ timestamp := t,
           sizing_type := "sizing_parameters",
           evaluation_interval_ms := some (ei * 1000),
           uncommit_delay_ms := some (ud * 1000),
           inactive_required := some minR }] }
  | G1Kind.legacyUncommit regions mb inactive =>
    { st with
      current_eval := {},
      sizing_entries := st.sizing_entries ++
        [{ timestamp := t,
           sizing_type := "time_based_uncommit",
           uncommit_regions := some regions,
           uncommit_mb := some mb,
           inactive_regions := some inactive }] }
  | G1Kind.shrinkEval mb =>
    { st with
      sizing_entries := st.sizing_entries ++
        [{ timestamp := t,
           sizing_type := "time_based_evaluation_shrink",
           shrink_mb := some (mb : ℚ) }] }
  | G1Kind.noUncommitLegacy =>
    { st with
      current_eval := {},
      sizing_entries := st.sizing_entries ++
        [{ timestamp := t, sizing_type := "time_based_evaluation_no_uncommit" }] }
  | G1Kind.shrinkCompleted heap =>
    { st with
      sizing_entries := st.sizing_entries ++
        [{ timestamp := t,
           sizing_type := "heap_shrink_completed",
           heap_size_mb := some (heap : ℚ) }] }
  | G1Kind.shrinkDetails regions mb heap =>
    { st with
      current_eval := {},
      sizing_entries := st.sizing_entries ++
        [{ timestamp := t,
           sizing_type := "heap_shrink_details",
           uncommit_regions := some regions,
           uncommit_mb := some (mb : ℚ),
           heap_size_mb := some (heap : ℚ) }] }
  | G1Kind.timeBasedUncommitted regions mb heap =>
    { st with
      current_eval := {},
      sizing_entries := st.sizing_entries ++
        [{ timestamp := t,
           sizing_type := "heap_shrink_details",
           uncommit_regions := some regions,
           uncommit_mb := some (mb : ℚ),
           heap_size_mb := some (heap : ℚ) }] }
  | G1Kind.evalStart =>
    { st with
      current_eval := { timestamp := some t },
      sizing_entries := st.sizing_entries ++
        [{ timestamp := t, sizing_type := "uncommit_evaluation_start" }] }
  | G1Kind.evalScan =>
    { st with
      sizing_entries := st.sizing_entries ++
        [{ timestamp := t, sizing_type := "uncommit_evaluation_scan" }] }
  | G1Kind.scanResult inactive total =>
    { st with
      current_eval :=
        { setdefaultTs st.current_eval t with
          inactive_regions := some inactive,
          total_empty_regions := some total },
      sizing_entries := st.sizing_entries ++
        [{ timestamp := t,
           sizing_type := "time_based_scan_result",
           inactive_regions := some inactive,
           total_empty_regions := some total }] }
  | G1Kind.evalFound inactive requested =>
    { st with
      current_eval :=
        if inactive = 0 then {}
        else
          { timestamp := some t,
            inactive_regions := some inactive,
            requested_regions := some requested,
            entry := some st.sizing_entries.length },
      sizing_entries := st.sizing_entries ++
        [{ timestamp := t,
           sizing_type :=
             if inactive ≠ 0 then "time_based_evaluation_shrink"
             else "time_based_evaluation_no_uncommit",
           inactive_regions := some inactive,
           requested_regions := some requested }] }
  | G1Kind.evalFoundMin inactive required =>
    { st with
      current_eval :=
        if inactive ≥ required then
          { timestamp := some t,
            inactive_regions := some inactive,
            inactive_required := some required,
            requested_regions := some required,
            entry := some st.sizing_entries.length }
        else {},
      sizing_entries := st.sizing_entries ++
        [{ timestamp := t,
           sizing_type :=
             if inactive < required then "time_based_evaluation_no_uncommit"
             else "time_based_evaluation_shrink",
           inactive_regions := some inactive,
           inactive_required := some required,
           requested_regions := if inactive ≥ required then some required else none }] }
  | G1Kind.evalFoundUncommitting inactive ur mb =>
    { st with
      current_eval :=
        { timestamp := some t,
          inactive_regions := some inactive,
          requested_regions := some ur,
          shrink_mb := some mb,
          entry := some st.sizing_entries.length },
      sizing_entries := st.sizing_entries ++
        [{ timestamp := t,
           sizing_type := "time_based_evaluation_shrink",
           inactive_regions := some inactive,
           requested_regions := some ur,
           shrink_mb := some (mb : ℚ) }] }
  | G1Kind.heapEvalShrink mb inactive required hb minb =>
    { st with
      current_eval :=
        { timestamp := some t,
          inactive_regions := some inactive,
          inactive_required := some required,
          heap_bytes := some hb,
          min_heap_bytes := some minb,
          shrink_mb := some mb,
          entry := some st.sizing_entries.length },
      sizing_entries := st.sizing_entries ++
        [{ timestamp := t,
           sizing_type := "time_based_evaluation_shrink",
           inactive_regions := some inactive,
           inactive_required := some required,
           shrink_mb := some (mb : ℚ),
           heap_bytes := some hb,
           min_heap_bytes := some minb }] }
  | G1Kind.heapEvalNoAction inactive required hb minb =>
    { st with
      current_eval := {},
      sizing_entries := st.sizing_entries ++
        [{ timestamp := t,
           sizing_type := "time_based_evaluation_no_uncommit",
           inactive_regions := some inactive,
           inactive_required := some required,
           heap_bytes := some hb,
           min_heap_bytes := some minb }] }
  | G1Kind.evalSummary mb =>
    (match st.current_eval.entry with
     | some i =>
       { st with
         current_eval := { setdefaultTs st.current_eval t with shrink_mb := some mb },
         sizing_entries := setEntryShrink st.sizing_entries i mb }
     | none =>
       { st with
         current_eval :=
           { setdefaultTs st.current_eval t with
             shrink_mb := some mb,
             entry := some st.sizing_entries.length },
         sizing_entries := st.sizing_entries ++
           [{ timestamp := t,
              sizing_type := "time_based_evaluation_shrink",
              shrink_mb := some (mb : ℚ) }] })
  | G1Kind.evalNoAction inactive required hb minb =>
    { st with
      current_eval := {},
      sizing_entries := st.sizing_entries ++
        [{ timestamp := t,
           sizing_type := "time_based_evaluation_no_uncommit",
           inactive_regions := some inactive,
           inactive_required := some required,
           heap_bytes := some hb,
           min_heap_bytes := some minb }] }
  | G1Kind.evalNoActionSimple _ =>
    { st with
      current_eval := {},
      sizing_entries := st.sizing_entries ++
        [{ timestamp := t, sizing_type := "time_based_evaluation_no_uncommit" }] }
  | G1Kind.request mb cand =>
    (match st.current_eval.entry with
     | some i =>
       { st with
         current_eval :=
           { setdefaultTs st.current_eval t with
             shrink_mb := some mb,
             requested_regions := some cand },
         sizing_entries := setEntryShrinkReq st.sizing_entries i mb cand ++
           [{ timestamp := t,
              sizing_type := "time_based_request",
              shrink_mb := some (mb : ℚ),
              requested_regions := some cand }] }
     | none =>
       { st with
         current_eval :=
           { setdefaultTs st.current_eval t with
             shrink_mb := some mb,
             requested_regions := some cand,
             entry := some st.sizing_entries.length },
         sizing_entries := st.sizing_entries ++
           [{ timestamp := t,
              sizing_type := "time_based_evaluation_shrink",
              shrink_mb := some (mb : ℚ),
              requested_regions := some cand }] ++
           [{ timestamp := t,
              sizing_type := "time_based_request",
              shrink_mb := some (mb : ℚ),
              requested_regions := some cand }] })
  | G1Kind.processing ur totalEmpty =>
    { st with
      current_eval :=
        { st.current_eval with
          uncommit_regions := some ur,
          total_empty_regions := some totalEmpty },
      sizing_entries := st.sizing_entries ++
        [{ timestamp := t,
           sizing_type := "time_based_processing",
           uncommit_regions := some ur,
           total_empty_regions := some totalEmpty }] }
  | G1Kind.deactivated n =>
    { st with
      current_eval := {},
      sizing_entries := st.sizing_entries ++
        [{ timestamp := t,
           sizing_type := "time_based_uncommit",
           inactive_regions := some (deactInactive st n),
           requested_regions := deactRequested st,
           uncommit_regions := some n,
           uncommit_mb := some ((deactShrinkMb st n : ℕ) : ℚ),
           total_empty_regions := st.current_eval.total_empty_regions }] }
  | G1Kind.candidate rid la =>
    { st with
      sizing_entries := st.sizing_entries ++
        [{ timestamp := t,
           sizing_type := "time_based_candidate",
           region_id := some rid,
           last_access_ms := some la }] }
  | G1Kind.deactivatingRegion rid la =>
    { st with
      sizing_entries := st.sizing_entries ++
        [{ timestamp := t,
           sizing_type := "time_based_deactivate_region",
           region_id := some rid,
           last_access_ms := some la }] }
  | G1Kind.regionTransition rid fromS toS idle =>
    { st with
      sizing_entries := st.sizing_entries ++
        [{ timestamp := t,
           sizing_type := "region_state_transition",
           region_id := some rid,
           transition_state := some (fromS ++ "->" ++ toS),
           last_access_ms := some idle }] }
  | G1Kind.regionSize _ => st
  | G1Kind.unmatched => st

/-- Embedding of `_parse_sizing_line` (lines 203-207): bail out when the line
yields no truthy timestamp, else dispatch on the matched pattern. -/
def parseSizingLine (st : G1State) (l : G1Line) : G1State :=
  match l.ts with
  | none => st
  | some t => if t.data.isEmpty then st else sizingDispatch st t l.kind

/-- Embedding of `_parse_line` (lines 159-174): the region-size header is
handled first and returns immediately; every other line goes through the
sizing dispatch (the region-row extraction touches only the disjoint
`region_data` state and is not modelled). -/
def parseG1Line (st : G1State) (l : G1Line) : G1State :=
  match l.kind with
  | G1Kind.regionSize m => { st with region_size := m }
  | _ => parseSizingLine st l

/-- Full sizing pass over a classified line list. -/
def parseG1Lines (lines : List G1Line) : G1State := lines.foldl parseG1Line g1Init

/-! Partial-sequence isolation (claim C2). -/

/-- Line sequence of the first C2 scenario: evaluation start
("Starting uncommit evaluation"), scan result ("Full region scan: found 5
inactive regions out of 20 total regions"), an unrecognized line, and the
shrink line "Time-based evaluation: shrink by 30MB". -/
def c2tokens1 : List G1Line :=
  [⟨some "1.000", G1Kind.evalStart⟩,
   ⟨some "2.000", G1Kind.scanResult 5 20⟩,
   ⟨none, G1Kind.unmatched⟩,
   ⟨some "3.000", G1Kind.shrinkEval 30⟩]

/-- Parser state after the first C2 scenario. -/
def c2run1 : G1State := parseG1Lines c2tokens1

/-- Completed `time_based_evaluation_shrink` events of the first scenario. -/
def c2completed1 : List SizingEntry :=
  c2run1.sizing_entries.filter (fun e => e.sizing_type == "time_based_evaluation_shrink")

/-- Completed-summary classification used by claim C2: the sizing types that
represent a finalized evaluation outcome rather than an intermediate step. -/
def isCompletedSummary (e : SizingEntry) : Bool :=
  e.sizing_type == "time_based_evaluation_shrink" ||
  e.sizing_type == "time_based_evaluation_no_uncommit" ||
  e.sizing_type == "time_based_uncommit" ||
  e.sizing_type == "heap_shrink_completed" ||
  e.sizing_type == "heap_shrink_details"

/-- Variant of the first scenario whose terminal line is the other shrink
wording, "Uncommit evaluation: shrinking heap by 30MB using time-based
selection" (the `eval_summary` branch). -/
def c2tokens1b : List G1Line :=
  [⟨some "1.000", G1Kind.evalStart⟩,
   ⟨some "2.000", G1Kind.scanResult 5 20⟩,
   ⟨none, G1Kind.unmatched⟩,
   ⟨some "3.000", G1Kind.evalSummary 30⟩]

/-- Parser state after the variant first scenario. -/
def c2run1b : G1State := parseG1Lines c2tokens1b

/-- Completed `time_based_evaluation_shrink` events of the variant scenario. -/
def c2completed1b : List SizingEntry :=
  c2run1b.sizing_entries.filter (fun e => e.sizing_type == "time_based_evaluation_shrink")

/-- Line sequence of the second C2 scenario: start and scan result with no
terminal line. -/
def c2tokens2 : List G1Line :=
  [⟨some "1.000", G1Kind.evalStart⟩, ⟨some "2.000", G1Kind.scanResult 5 20⟩]

/-- Parser state after the second C2 scenario. -/
def c2run2 : G1State := parseG1Lines c2tokens2

/-- Second scenario followed by a fresh evaluation start. -/
def c2tokens3 : List G1Line := c2tokens2 ++ [⟨some "4.000", G1Kind.evalStart⟩]

/-- Parser state after the second scenario plus a fresh start. -/
def c2run3 : G1State := parseG1Lines c2tokens3

/-- Counterexample for C2 as stated: the single completed
`time_based_evaluation_shrink` event of the first scenario does not carry
`inactive_regions = 5` and `total_empty_regions = 20` — both fields are absent
(`none`), because the shrink line's branch builds a fresh entry without
consulting the accumulator. -/
theorem c2_counterexample :
    c2completed1.map (fun e => (e.inactive_regions, e.total_empty_regions, e.shrink_mb))
      = [(none, none, some (30 : ℚ))]
  ∧ ¬ c2completed1.map (fun e => (e.inactive_regions, e.total_empty_regions, e.shrink_mb))
      = [(some 5, some 20, some (30 : ℚ))] := by
  constructor
  · decide
  · decide

/-- C2 (amended): the first scenario yields exactly one completed
`time_based_evaluation_shrink` event, carrying `shrink_mb = 30` with
`inactive_regions` and `total_empty_regions` absent; the scan-captured values
5 and 20 surface only on the intermediate `time_based_scan_result` event; the
second scenario yields zero completed summary events, and a subsequent
evaluation start clears the accumulator (leaving only its own timestamp)
rather than emitting it; the same holds when the terminal line is the
alternative "Uncommit evaluation: shrinking heap by 30MB" wording. -/
theorem c2_partial_sequence_amended :
    c2completed1
      = [{ timestamp := "3.000", sizing_type := "time_based_evaluation_shrink",
           shrink_mb := some (30 : ℚ) }]
  ∧ c2run1.sizing_entries.map (fun e => e.sizing_type)
      = ["uncommit_evaluation_start", "time_based_scan_result",
         "time_based_evaluation_shrink"]
  ∧ (c2run1.sizing_entries.filter (fun e => e.sizing_type == "time_based_scan_result")).map
        (fun e => (e.inactive_regions, e.total_empty_regions))
      = [(some 5, some 20)]
  ∧ c2completed1b.map (fun e => (e.inactive_regions, e.total_empty_regions, e.shrink_mb))
      = [(none, none, some (30 : ℚ))]
  ∧ c2run2.sizing_entries.filter isCompletedSummary = []
  ∧ c2run3.sizing_entries.filter isCompletedSummary = []
  ∧ c2run3.current_eval = { timestamp := some "4.000" } := by
  refine ⟨?_, ?_, ?_, ?_, ?_, ?_, ?_⟩ <;> decide

/-! Deactivated-regions fallback estimate (claim C8). -/

/-- C8: a "deactivated N regions" completion line finalizes the evaluation by
emitting a `time_based_uncommit` summary whose memory value is the
accumulator-held shrink value when present, else `N * region_size_mb`
(which is 0 when no "Heap Region Size: NM" header was ever seen, since
`region_size` starts at 0); the header line sets `region_size` and does
nothing else; the accumulator is cleared afterwards. -/
theorem c8_deactivated_fallback (st : G1State) (t : String) (ht : t.data.isEmpty = false)
    (n m : ℕ) :
    (parseG1Line st ⟨some t, G1Kind.deactivated n⟩).sizing_entries
      = st.sizing_entries ++
        [{ timestamp := t,
           sizing_type := "time_based_uncommit",
           inactive_regions := some (deactInactive st n),
           requested_regions := deactRequested st,
           uncommit_regions := some n,
           uncommit_mb := some ((deactShrinkMb st n : ℕ) : ℚ),
           total_empty_regions := st.current_eval.total_empty_regions }]
  ∧ (parseG1Line st ⟨some t, G1Kind.deactivated n⟩).current_eval = {}
  ∧ (∀ mb, st.current_eval.shrink_mb = some mb → deactShrinkMb st n = mb)
  ∧ (st.current_eval.shrink_mb = none → deactShrinkMb st n = n * st.region_size)
  ∧ (st.current_eval.shrink_mb = none → st.region_size = 0 → deactShrinkMb st n = 0)
  ∧ parseG1Line st ⟨none, G1Kind.regionSize m⟩ = { st with region_size := m }
  ∧ g1Init.region_size = 0 := by
  refine ⟨?_, ?_, ?_, ?_, ?_, rfl, rfl⟩
  · simp [parseG1Line, parseSizingLine, ht, sizingDispatch]
  · simp [parseG1Line, parseSizingLine, ht, sizingDispatch]
  · intro mb h
    simp [deactShrinkMb, h]
  · intro h
    by_cases hr : st.region_size = 0 <;> simp [deactShrinkMb, h, hr]
  · intro h hr
    simp [deactShrinkMb, h, hr]

/-- Concrete state for the C8 witness: region size 4 discovered, an in-flight
evaluation with no shrink value but a known total-empty count. -/
def c8wState : G1State :=
  { region_size := 4,
    current_eval := { timestamp := some "1.0", total_empty_regions := some 9 },
    sizing_entries := [] }

/-- Witness for C8: deactivating 3 regions in `c8wState` emits a
`time_based_uncommit` entry whose memory estimate falls back to
`3 * region_size = 12` MB. -/
theorem c8_deactivated_fallback_witness :
    (parseG1Line c8wState ⟨some "2.0", G1Kind.deactivated 3⟩).sizing_entries
      = [{ timestamp := "2.0",
           sizing_type := "time_based_uncommit",
           inactive_regions := some (deactInactive c8wState 3),
           requested_regions := deactRequested c8wState,
           uncommit_regions := some 3,
           uncommit_mb := some ((deactShrinkMb c8wState 3 : ℕ) : ℚ),
           total_empty_regions := c8wState.current_eval.total_empty_regions }]
  ∧ deactShrinkMb c8wState 3 = 3 * c8wState.region_size
  ∧ deactShrinkMb c8wState 3 = 12 := by
  refine ⟨?_, (c8_deactivated_fallback c8wState "2.0" (by decide) 3 0).2.2.2.1 rfl, by decide⟩
  have h := (c8_deactivated_fallback c8wState "2.0" (by decide) 3 0).1
  rw [h]
  rfl

/-! Second-valued sizing-parameters line (claim C10). -/

/-- C10: the new-format parameters line "Evaluation Interval: Ns, Uncommit
Delay: Ms, Min Regions To Uncommit: K" is stored as a `sizing_parameters` entry
with the second-valued tokens converted to milliseconds
(`evaluation_interval_ms = N * 1000`, `uncommit_delay_ms = M * 1000`) and
`inactive_required = K`, while the old millisecond-valued line stores its
tokens unconverted — so both expose their intervals in milliseconds; neither
branch touches the accumulator. -/
theorem c10_params_seconds_to_ms (st : G1State) (t : String) (ht : t.data.isEmpty = false)
    (ei ud k ei2 ud2 : ℕ) :
    (parseG1Line st ⟨some t, G1Kind.paramsNew ei ud k⟩).sizing_entries
      = st.sizing_entries ++
        [{ timestamp := t,
           sizing_type := "sizing_parameters",
           evaluation_interval_ms := some (ei * 1000),
           uncommit_delay_ms := some (ud * 1000),
           inactive_required := some k }]
  ∧ (parseG1Line st ⟨some t, G1Kind.paramsOld ei2 ud2⟩).sizing_entries
      = st.sizing_entries ++
        [{ timestamp := t,
           sizing_type := "sizing_parameters",
           evaluation_interval_ms := some ei2,
           uncommit_delay_ms := some ud2 }]
  ∧ (parseG1Line st ⟨some t, G1Kind.paramsNew ei ud k⟩).current_eval = st.current_eval := by
  refine ⟨?_, ?_, ?_⟩ <;> simp [parseG1Line, parseSizingLine, ht, sizingDispatch]

/-- Witness for C10 at the spec's example line "Evaluation Interval: 60s,
Uncommit Delay: 300s, Min Regions To Uncommit: 10". -/
theorem c10_params_seconds_to_ms_witness :
    (parseG1Line g1Init ⟨some "1.0", G1Kind.paramsNew 60 300 10⟩).sizing_entries
      = [{ timestamp := "1.0",
           sizing_type := "sizing_parameters",
           evaluation_interval_ms := some 60000,
           uncommit_delay_ms := some 300000,
           inactive_required := some 10 }] := by
  have h := (c10_params_seconds_to_ms g1Init "1.0" (by decide) 60 300 10 0 0).1
  rw [h]
  decide

/-! Embedding of the two concurrent-collector parsers, `parse_gc_log` of
zgc_plotter.py (lines 91-164) and of genzgc_plotter.py (lines 96-178).

Each loop iteration classifies a line with an if/elif chain over the pause,
concurrent, page-size, cause and version patterns, so a line contributes to at
most one record list; lines are represented by the first matching pattern's
captures.  All numeric captures are unsigned digit runs `(\d+)` (values ℕ) or
decimals `(\d+\.\d+)` (values ℚ); in particular the percent captures `(\d+)%`
of the cause patterns place no upper bound on the captured value, and the
parsers copy them into the records without clamping or validation. -/

/-- Row of `gc_pause_data` (zgc_plotter.py lines 118-123). -/
structure ZgcPauseRecord where
  time : ℚ
  gcCycle : ℕ
  pauseType : String
  duration : ℚ
deriving DecidableEq

/-- Row of `concurrent_phase_data` (zgc_plotter.py lines 126-131). -/
structure ZgcConcurrentRecord where
  time : ℚ
  gcCycle : ℕ
  phaseType : String
  duration : ℚ
deriving DecidableEq

/-- Row of `gc_pgsz_data` (zgc_plotter.py lines 134-143). -/
structure ZgcPgszRecord where
  time : ℚ
  gcCycle : ℕ
  pageType : String
  usedPages : ℕ
  totalPages : ℕ
  emptyPages : ℕ
  relocatedPages : ℕ
  inPlacePages : ℕ
deriving DecidableEq

/-- Row of `gc_cause_data` (zgc_plotter.py lines 146-154), from the pattern
`... Garbage Collection \((.+?)\) (\d+)M\((\d+)%\)->(\d+)M\((\d+)%\)`. -/
structure ZgcCauseRecord where
  time : ℚ
  gcCycle : ℕ
  cause : String
  beforeUsage : ℕ
  beforePercent : ℕ
  afterUsage : ℕ
  afterPercent : ℕ
deriving DecidableEq

/-- Classified zgc_plotter line (first matching pattern of the if/elif chain). -/
inductive ZgcLine where
  | pauseLine (time : ℚ) (cycle : ℕ) (ptype : String) (dur : ℚ)
  | concurrentLine (time : ℚ) (cycle : ℕ) (phase : String) (dur : ℚ)
  | pgszLine (time : ℚ) (cycle : ℕ) (ptype : String) (used total empty reloc inplace : ℕ)
  | causeLine (time : ℚ) (cycle : ℕ) (cause : String) (bU bP aU aP : ℕ)
  | versionLine (v : String)
  | noMatch
deriving DecidableEq

/-- Collected lists of the zgc_plotter parse. -/
structure ZgcState where
  pauseData : List ZgcPauseRecord
  concurrentData : List ZgcConcurrentRecord
  pgszData : List ZgcPgszRecord
  causeData : List ZgcCauseRecord
  jdkVersion : Option String
deriving DecidableEq

/-- Initial zgc_plotter parse state. -/
def zgcInit : ZgcState := ⟨[], [], [], [], none⟩

/-- One iteration of the zgc_plotter line loop. -/
def zgcStep (st : ZgcState) : ZgcLine → ZgcState
  | ZgcLine.pauseLine time cycle ptype dur =>
    { st with pauseData := st.pauseData ++ [⟨time, cycle, ptype, dur⟩] }
  | ZgcLine.concurrentLine time cycle phase dur =>
    { st with concurrentData := st.concurrentData ++ [⟨time, cycle, phase, dur⟩] }
  | ZgcLine.pgszLine time cycle ptype used total empty reloc inplace =>
    { st with pgszData := st.pgszData ++
        [⟨time, cycle, ptype, used, total, empty, reloc, inplace⟩] }
  | ZgcLine.causeLine time cycle cause bU bP aU aP =>
    { st with causeData := st.causeData ++ [⟨time, cycle, cause, bU, bP, aU, aP⟩] }
  | ZgcLine.versionLine v => { st with jdkVersion := some v }
  | ZgcLine.noMatch => st

/-- Embedding of zgc_plotter.py `parse_gc_log`. -/
def zgc_parse_gc_log (lines : List ZgcLine) : ZgcState := lines.foldl zgcStep zgcInit

/-- Generation lookup of genzgc_plotter.py (lines 63-66 and the
`generation_mapping.get(gen_type.upper(), "Unknown")` calls): `O` maps to Old,
`Y` to Young, anything else to Unknown. -/
def generation_mapping (g : Char) : String :=
  if g.toUpper = 'O' then "Old" else if g.toUpper = 'Y' then "Young" else "Unknown"

/-- Row of genzgc `gc_pause_data` (genzgc_plotter.py lines 124-130). -/
structure GenzgcPauseRecord where
  time : ℚ
  gcCycle : ℕ
  generation : String
  pauseType : String
  duration : ℚ
deriving DecidableEq

/-- Row of genzgc `concurrent_phase_data` (lines 134-140). -/
structure GenzgcConcurrentRecord where
  time : ℚ
  gcCycle : ℕ
  generation : String
  phaseType : String
  duration : ℚ
deriving DecidableEq

/-- Row of genzgc `gc_pgsz_data` (lines 144-155); the three size fields are
stored as strings with an `M` suffix appended to the captured digits. -/
structure GenzgcPgszRecord where
  time : ℚ
  gcCycle : ℕ
  generation : String
  pageType : String
  candidates : ℕ
  selected : ℕ
  inPlace : ℕ
  sizes : String
  emptyMb : String
  relocated : String
deriving DecidableEq

/-- Row of genzgc `gc_cause_data` (lines 158-168); usage and percent fields
are stored as strings with `M` and `%` suffixes appended to the captured
digits. -/
structure GenzgcCauseRecord where
  time : ℚ
  gcCycle : ℕ
  collectionType : String
  cause : String
  beforeUsage : String
  beforePercent : String
  afterUsage : String
  afterPercent : String
  duration : ℚ
deriving DecidableEq

/-- Classified genzgc_plotter line; digit captures are modelled by their
numeric value (rendered back canonically where the source stores the raw
token). -/
inductive GenzgcLine where
  | pauseLine (time : ℚ) (cycle : ℕ) (gen : Char) (ptype : String) (dur : ℚ)
  | concurrentLine (time : ℚ) (cycle : ℕ) (gen : Char) (phase : String) (dur : ℚ)
  | pgszLine (time : ℚ) (cycle : ℕ) (gen : Char) (ptype : String)
      (candidates selected inplace size empty reloc : ℕ)
  | causeLine (time : ℚ) (cycle : ℕ) (ctype : String) (cause : String)
      (bU bP aU aP : ℕ) (dur : ℚ)
  | versionLine (v : String)
  | noMatch
deriving DecidableEq

/-- Collected lists of the genzgc_plotter parse. -/
structure GenzgcState where
  pauseData : List GenzgcPauseRecord
  concurrentData : List GenzgcConcurrentRecord
  pgszData : List GenzgcPgszRecord
  causeData : List GenzgcCauseRecord
  jdkVersion : Option String
deriving DecidableEq

/-- Initial genzgc_plotter parse state. -/
def genzgcInit : GenzgcState := ⟨[], [], [], [], none⟩

/-- One iteration of the genzgc_plotter line loop. -/
def genzgcStep (st : GenzgcState) : GenzgcLine → GenzgcState
  | GenzgcLine.pauseLine time cycle gen ptype dur =>
    { st with pauseData := st.pauseData ++
        [⟨time, cycle, generation_mapping gen, ptype, dur⟩] }
  | GenzgcLine.concurrentLine time cycle gen phase dur =>
    { st with concurrentData := st.concurrentData ++
        [⟨time, cycle, generation_mapping gen, phase, dur⟩] }
  | GenzgcLine.pgszLine time cycle gen ptype candidates selected inplace size empty reloc =>
    { st with pgszData := st.pgszData ++
        [⟨time, cycle, generation_mapping gen, ptype, candidates, selected, inplace,
          toString size ++ "M", toString empty ++ "M", toString reloc ++ "M"⟩] }
  | GenzgcLine.causeLine time cycle ctype cause bU bP aU aP dur =>
    { st with causeData := st.causeData ++
        [⟨time, cycle, ctype, cause, toString bU ++ "M", toString bP ++ "%",
          toString aU ++ "M", toString aP ++ "%", dur⟩] }
  | GenzgcLine.versionLine v => { st with jdkVersion := some v }
  | GenzgcLine.noMatch => st

/-- Embedding of genzgc_plotter.py `parse_gc_log`. -/
def genzgc_parse_gc_log (lines : List GenzgcLine) : GenzgcState :=
  lines.foldl genzgcStep genzgcInit

/-! Percentage and size bounds (claim C9). -/

/-- Boundedness of a zgc line's percent captures (trivially true for non-cause
lines). -/
def zgcCausePctOk : ZgcLine → Prop
  | ZgcLine.causeLine _ _ _ _ bP _ aP => bP ≤ 100 ∧ aP ≤ 100
  | _ => True

/-- Boundedness of a genzgc line's percent captures. -/
def genzgcCausePctOk : GenzgcLine → Prop
  | GenzgcLine.causeLine _ _ _ _ _ bP _ aP _ => bP ≤ 100 ∧ aP ≤ 100
  | _ => True

theorem zgcStep_causeOk (P : ZgcCauseRecord → Prop) (st : ZgcState) (l : ZgcLine)
    (hl : ∀ time cycle cause bU bP aU aP, l = ZgcLine.causeLine time cycle cause bU bP aU aP →
      P ⟨time, cycle, cause, bU, bP, aU, aP⟩)
    (h : ∀ r ∈ st.causeData, P r) :
    ∀ r ∈ (zgcStep st l).causeData, P r := by
  cases l with
  | causeLine time cycle cause bU bP aU aP =>
    intro r hr
    rcases List.mem_append.mp hr with h1 | h1
    · exact h r h1
    · have h2 := List.mem_singleton.mp h1
      subst h2
      exact hl time cycle cause bU bP aU aP rfl
  | pauseLine a b c d => exact h
  | concurrentLine a b c d => exact h
  | pgszLine a b c d e f g2 i2 => exact h
  | versionLine v => exact h
  | noMatch => exact h

theorem genzgcStep_causeOk (P : GenzgcCauseRecord → Prop) (st : GenzgcState) (l : GenzgcLine)
    (hl : ∀ time cycle ctype cause bU bP aU aP dur,
      l = GenzgcLine.causeLine time cycle ctype cause bU bP aU aP dur →
      P ⟨time, cycle, ctype, cause, toString bU ++ "M", toString bP ++ "%",
        toString aU ++ "M", toString aP ++ "%", dur⟩)
    (h : ∀ r ∈ st.causeData, P r) :
    ∀ r ∈ (genzgcStep st l).causeData, P r := by
  cases l with
  | causeLine time cycle ctype cause bU bP aU aP dur =>
    intro r hr
    rcases List.mem_append.mp hr with h1 | h1
    · exact h r h1
    · have h2 := List.mem_singleton.mp h1
      subst h2
      exact hl time cycle ctype cause bU bP aU aP dur rfl
  | pauseLine a b c d e => exact h
  | concurrentLine a b c d e => exact h
  | pgszLine a b c d e f g2 i2 j2 k2 => exact h
  | versionLine v => exact h
  | noMatch => exact h

theorem zgcFold_causeOk (P : ZgcCauseRecord → Prop) (lines : List ZgcLine) (st : ZgcState)
    (hl : ∀ l ∈ lines, ∀ time cycle cause bU bP aU aP,
      l = ZgcLine.causeLine time cycle cause bU bP aU aP → P ⟨time, cycle, cause, bU, bP, aU, aP⟩)
    (h : ∀ r ∈ st.causeData, P r) :
    ∀ r ∈ (lines.foldl zgcStep st).causeData, P r := by
  induction lines generalizing st with
  | nil => exact h
  | cons a t ih =>
    exact ih _ (fun l hl2 => hl l (by simp [hl2]))
      (zgcStep_causeOk P st a (hl a (by simp)) h)

theorem genzgcFold_causeOk (P : GenzgcCauseRecord → Prop) (lines : List GenzgcLine)
    (st : GenzgcState)
    (hl : ∀ l ∈ lines, ∀ time cycle ctype cause bU bP aU aP dur,
      l = GenzgcLine.causeLine time cycle ctype cause bU bP aU aP dur →
      P ⟨time, cycle, ctype, cause, toString bU ++ "M", toString bP ++ "%",
        toString aU ++ "M", toString aP ++ "%", dur⟩)
    (h : ∀ r ∈ st.causeData, P r) :
    ∀ r ∈ (lines.foldl genzgcStep st).causeData, P r := by
  induction lines generalizing st with
  | nil => exact h
  | cons a t ih =>
    exact ih _ (fun l hl2 => hl l (by simp [hl2]))
      (genzgcStep_causeOk P st a (hl a (by simp)) h)

/-- C9 (amended): both concurrent-collector parsers copy the captured digit
tokens into the cause records without clamping, so the occupancy percentages of
every extracted record lie in [0,100] exactly when the log's own percent tokens
do (memory sizes, being unsigned digit captures, are nonnegative by
construction — they are ℕ in this model). -/
theorem c9_percentage_bounds_amended (zt : List ZgcLine) (gt : List GenzgcLine)
    (hz : ∀ l ∈ zt, zgcCausePctOk l) (hg : ∀ l ∈ gt, genzgcCausePctOk l) :
    (∀ r ∈ (zgc_parse_gc_log zt).causeData, r.beforePercent ≤ 100 ∧ r.afterPercent ≤ 100)
  ∧ (∀ r ∈ (genzgc_parse_gc_log gt).causeData, ∃ p q : ℕ, p ≤ 100 ∧ q ≤ 100 ∧
      r.beforePercent = toString p ++ "%" ∧ r.afterPercent = toString q ++ "%") := by
  constructor
  · apply zgcFold_causeOk (fun r => r.beforePercent ≤ 100 ∧ r.afterPercent ≤ 100) zt zgcInit
    · intro l hlmem time cycle cause bU bP aU aP heq
      have := hz l hlmem
      rw [heq] at this
      exact this
    · intro r hr
      exact absurd hr (by simp [zgcInit])
  · apply genzgcFold_causeOk (fun r => ∃ p q : ℕ, p ≤ 100 ∧ q ≤ 100 ∧
      r.beforePercent = toString p ++ "%" ∧ r.afterPercent = toString q ++ "%") gt genzgcInit
    · intro l hlmem time cycle ctype cause bU bP aU aP dur heq
      have hb := hg l hlmem
      rw [heq] at hb
      exact ⟨bP, aP, hb.1, hb.2, rfl, rfl⟩
    · intro r hr
      exact absurd hr (by simp [genzgcInit])

/-- Cause line with an out-of-range percent token, as captured by the zgc cause
pattern from the line "[1.0s] GC(3) Garbage Collection (Allocation Rate)
100M(150%)->50M(25%)" (the `(\d+)%` groups accept any digit run). -/
def c9badZgc : ZgcLine := ZgcLine.causeLine 1 3 "Allocation Rate" 100 150 50 25

/-- The analogous genzgc cause line
"[1.0s] GC(3) Minor Collection (Allocation Rate) 100M(150%)->50M(25%) 2.0s". -/
def c9badGen : GenzgcLine := GenzgcLine.causeLine 1 3 "Minor" "Allocation Rate" 100 150 50 25 2

/-- Counterexample for C9 as stated: a buffer whose cause line carries the
percent token 150 yields a record with `beforePercent = 150 > 100` in the zgc
parser, and the string `"150%"` in the genzgc parser — neither parser enforces
the [0,100] bound. -/
theorem c9_counterexample :
    (zgc_parse_gc_log [c9badZgc]).causeData = [⟨1, 3, "Allocation Rate", 100, 150, 50, 25⟩]
  ∧ ¬ (150 : ℕ) ≤ 100
  ∧ (genzgc_parse_gc_log [c9badGen]).causeData
      = [⟨1, 3, "Minor", "Allocation Rate", "100M", "150%", "50M", "25%", 2⟩] := by
  refine ⟨rfl, by decide, by decide⟩

/-- Concrete in-range inputs for the C9 witness. -/
def c9wZ : List ZgcLine := [ZgcLine.causeLine 1 0 "System.gc()" 100 50 40 20]

def c9wG : List GenzgcLine := [GenzgcLine.causeLine 1 0 "Major" "System.gc()" 100 50 40 20 3]

/-- Witness for the amended C9 at concrete in-range cause lines. -/
theorem c9_percentage_bounds_amended_witness :
    ((⟨1, 0, "System.gc()", 100, 50, 40, 20⟩ : ZgcCauseRecord).beforePercent ≤ 100
      ∧ (⟨1, 0, "System.gc()", 100, 50, 40, 20⟩ : ZgcCauseRecord).afterPercent ≤ 100)
  ∧ ∃ p q : ℕ, p ≤ 100 ∧ q ≤ 100 ∧
      (⟨1, 0, "Major", "System.gc()", "100M", "50%", "40M", "20%", 3⟩ :
        GenzgcCauseRecord).beforePercent = toString p ++ "%"
      ∧ (⟨1, 0, "Major", "System.gc()", "100M", "50%", "40M", "20%", 3⟩ :
        GenzgcCauseRecord).afterPercent = toString q ++ "%" := by
  have hz : ∀ l ∈ c9wZ, zgcCausePctOk l := by
    intro l hl
    simp only [c9wZ, List.mem_singleton] at hl
    subst hl
    exact ⟨by norm_num, by norm_num⟩
  have hg : ∀ l ∈ c9wG, genzgcCausePctOk l := by
    intro l hl
    simp only [c9wG, List.mem_singleton] at hl
    subst hl
    exact ⟨by norm_num, by norm_num⟩
  refine ⟨(c9_percentage_bounds_amended c9wZ c9wG hz hg).1 _ (by decide),
    (c9_percentage_bounds_amended c9wZ c9wG hz hg).2 _ (by decide)⟩

end GCVerify
